import Mathlib

/-
Verification of the trade-metrics pipeline of this repository.

Embedded code:
  * nafta-exports.py / nafta-imports.py — the Record Harmonizer for one side:
    Value cleaning (comma strip + float conversion), the Period Normalizer
    (Year / Month extraction by regex, month_map lookup, Date construction),
    and the projection to the canonical column order.
  * combined.py (calculate_trade_metrics) — the Trade Metrics Engine:
    projection of both sides to the merge columns, full outer merge on
    (Time, Date, Year, Month, Country), and the derived metric columns.

File reading / writing, logging and plotting are external collaborators and
are not modelled; the two harmonizer outputs are passed to the engine as
in-memory record lists.  Float arithmetic is modelled by `FVal`: an exact
rational for finite values plus the two infinities and NaN, with the IEEE-754
special-value rules used by numpy/pandas.  pandas uses NaN both for missing
data and for 0/0, so `FVal.nan` is also the model's missing value.
-/

namespace Tariffs

/-- The numeric domain of the pipeline's float columns: a finite value
(held exactly as a rational), the two infinities, and NaN.  Signed zero is
collapsed to `fin 0` (the pipeline never observes the sign of a zero). -/
inductive FVal where
  | fin : ℚ → FVal
  | pinf : FVal
  | ninf : FVal
  | nan : FVal
deriving DecidableEq, Repr

namespace FVal

/-- IEEE negation. -/
def neg : FVal → FVal
  | fin q => fin (-q)
  | pinf => ninf
  | ninf => pinf
  | nan => nan

/-- IEEE addition, as numpy performs it on two float columns. -/
def add : FVal → FVal → FVal
  | nan, _ => nan
  | _, nan => nan
  | fin a, fin b => fin (a + b)
  | fin _, pinf => pinf
  | fin _, ninf => ninf
  | pinf, fin _ => pinf
  | ninf, fin _ => ninf
  | pinf, pinf => pinf
  | ninf, ninf => ninf
  | pinf, ninf => nan
  | ninf, pinf => nan

/-- IEEE subtraction. -/
def sub (a b : FVal) : FVal := add a (neg b)

/-- IEEE division, as numpy performs it on two float columns:
nonzero/0 is a signed infinity, 0/0 is NaN, anything with NaN is NaN. -/
def div : FVal → FVal → FVal
  | nan, _ => nan
  | _, nan => nan
  | fin a, fin b =>
      if b = 0 then (if a = 0 then nan else if 0 < a then pinf else ninf)
      else fin (a / b)
  | fin _, pinf => fin 0
  | fin _, ninf => fin 0
  | pinf, fin b => if b < 0 then ninf else pinf
  | ninf, fin b => if b < 0 then pinf else ninf
  | pinf, pinf => nan
  | pinf, ninf => nan
  | ninf, pinf => nan
  | ninf, ninf => nan

/-- The rational a finite value holds (0 for the non-finite ones); a
statement-side projection, not part of the pipeline. -/
def toQ : FVal → ℚ
  | fin q => q
  | pinf => 0
  | ninf => 0
  | nan => 0

end FVal

/-- `.str.replace(',','')` (nafta-exports.py line 21, nafta-imports.py
line 29): every comma is removed, wherever it occurs. -/
def stripCommas (s : String) : String := ⟨s.data.filter (fun c => !(c == ','))⟩

/-- The natural number denoted by a list of decimal digit characters. -/
def digitsVal (l : List Char) : Nat := l.foldl (fun a c => 10 * a + (c.toNat - 48)) 0

/-- `astype(float)` on one cell, i.e. Python `float()` restricted to plain
decimal literals: optional sign, integer digits, optional '.' and fraction
digits (at least one digit overall).  A string outside this fragment parses
to `none`, modelling the ValueError that aborts the run. -/
def parseFloat (s : String) : Option ℚ :=
  let signAndRest : Bool × List Char :=
    match s.data with
    | '-' :: t => (true, t)
    | '+' :: t => (false, t)
    | l => (false, l)
  let ip := signAndRest.2.takeWhile Char.isDigit
  let rest := signAndRest.2.dropWhile Char.isDigit
  let mag : Option ℚ :=
    match rest with
    | [] => if ip.isEmpty then none else some (digitsVal ip : ℚ)
    | '.' :: fp =>
        if (ip.isEmpty && fp.isEmpty) || !fp.all Char.isDigit then none
        else some ((digitsVal ip : ℚ) + (digitsVal fp : ℚ) / (10 : ℚ) ^ fp.length)
    | _ => none
  mag.map (fun q => if signAndRest.1 then -q else q)

/-- The whole Value-cell cleaning of nafta-exports.py line 21 /
nafta-imports.py line 29: strip the thousands separators, then convert. -/
def parseValue (s : String) : Option ℚ := parseFloat (stripCommas s)

/-- Does the list start with four decimal digits (the regex `\d\x7b4\x7d`
anchored at this position)? -/
def digits4 : List Char → Bool
  | d1 :: d2 :: d3 :: d4 :: _ => d1.isDigit && d2.isDigit && d3.isDigit && d4.isDigit
  | _ => false

/-- Leftmost match of `(\d\x7b4\x7d)`, as `.str.extract(r'(\d\x7b4\x7d)')`
finds it: scan positions left to right, return the first four-digit run. -/
def findYear : List Char → Option (List Char)
  | [] => none
  | c :: t => if digits4 (c :: t) then some ((c :: t).take 4) else findYear t

/-- Python's `\w` on the ASCII labels this data uses. -/
def isWordChar (c : Char) : Bool := c.isAlphanum || c == '_'

/-- The regex fragment `\s+\d\x7b4\x7d` anchored at the head of the list:
at least one whitespace character, then four digits.  (Whitespace and digits
are disjoint, so the greedy `\s+` needs no backtracking.) -/
def wsDigits4 : List Char → Bool
  | [] => false
  | c :: t => c.isWhitespace && digits4 (t.dropWhile Char.isWhitespace)

/-- Greedy backtracking for the `\w+` capture group: try the longest
candidate (`j` characters of `l`) first, shrinking until `\s+\d\x7b4\x7d`
matches right after it. -/
def tryLen (l : List Char) : Nat → Option (List Char)
  | 0 => none
  | j + 1 => if wsDigits4 (l.drop (j + 1)) then some (l.take (j + 1)) else tryLen l j

/-- Leftmost-greedy match of the capture group of `(\w+)\s+\d\x7b4\x7d`, as
`.str.extract(r'(\w+)\s+\d\x7b4\x7d')` finds it (nafta-exports.py line 25 /
nafta-imports.py line 33). -/
def findMonth : List Char → Option (List Char)
  | [] => none
  | c :: t =>
    match tryLen (c :: t) ((c :: t).takeWhile isWordChar).length with
    | some g => some g
    | none => findMonth t

/-- `Time.str.extract(r'(\d\x7b4\x7d)').fillna(Time)` (nafta-exports.py
line 24 / nafta-imports.py line 32): the first four-digit run of the label,
falling back to the whole label when there is none. -/
def periodYear (time : String) : String :=
  match findYear time.data with
  | some y => ⟨y⟩
  | none => time

/-- `Time.str.extract(r'(\w+)\s+\d\x7b4\x7d').fillna('Annual')`
(nafta-exports.py line 25 / nafta-imports.py line 33). -/
def periodMonth (time : String) : String :=
  match findMonth time.data with
  | some m => ⟨m⟩
  | none => "Annual"

/-- The static month table `month_map` (nafta-exports.py lines 29–34 /
nafta-imports.py lines 36–41).  pandas `Series.map(dict)` yields NaN for a
key outside the dictionary, hence the `Option`. -/
def month_map (m : String) : Option String :=
  match m with
  | "January" => some "01"
  | "February" => some "02"
  | "March" => some "03"
  | "April" => some "04"
  | "May" => some "05"
  | "June" => some "06"
  | "July" => some "07"
  | "August" => some "08"
  | "September" => some "09"
  | "October" => some "10"
  | "November" => some "11"
  | "December" => some "12"
  | "Annual" => some "00"
  | _ => none

/-- The Date column (nafta-exports.py lines 38–42 / nafta-imports.py lines
45–49): the bare year for annual rows, otherwise `Year-Month_Num-01`.
When `Month_Num` is NaN (a month name outside `month_map`), the pandas
object-dtype concatenation masks the missing operand and the Date cell is
NaN too — hence the `Option`. -/
def periodDate (time : String) : Option String :=
  let year := periodYear time
  let month := periodMonth time
  if month = "Annual" then some year
  else (month_map month).map (fun n => year ++ "-" ++ n ++ "-01")

/-- One raw input row: the columns the pipeline keeps.  Extra raw columns
(the imports side's "Unnamed: 3") are dropped before any computation and
are not modelled; the side-specific value column ("Value ($US)" /
"Customs Value (Gen) ($US)") is already renamed to `Value`. -/
structure RawTradeRecord where
  Time : String
  Country : String
  Value : String
deriving DecidableEq, Repr

/-- One row of `processed_exports.csv` / `processed_imports.csv`
(nafta-exports.py line 45: columns Time, Date, Year, Month, Month_Num,
Country, Value ($US)).  `Date` and `Month_Num` are `Option` because both
cells are NaN for a month name outside `month_map`. -/
structure NormalizedRecord where
  Time : String
  Date : Option String
  Year : String
  Month : String
  Month_Num : Option String
  Country : String
  Value : FVal
deriving DecidableEq, Repr

/-- A record shaped like harmonizer output: Year, Month and Date are the
Period Normalizer's functions of Time.  Every record `harmonize` produces
has this shape (`harmonize_shape` below). -/
def NormalizedRecord.harmonizedShape (r : NormalizedRecord) : Prop :=
  r.Year = periodYear r.Time ∧ r.Month = periodMonth r.Time ∧ r.Date = periodDate r.Time

/-- The harmonizer's work on one row (nafta-exports.py lines 21–42):
clean the Value cell, derive Year / Month / Month_Num / Date from Time.
`none` models the ValueError raised by `astype(float)`. -/
def normalizeRecord (r : RawTradeRecord) : Option NormalizedRecord :=
  match parseValue r.Value with
  | none => none
  | some q =>
      some { Time := r.Time
             Date := periodDate r.Time
             Year := periodYear r.Time
             Month := periodMonth r.Time
             Month_Num := month_map (periodMonth r.Time)
             Country := r.Country
             Value := FVal.fin q }

/-- One whole harmonizer run (nafta-exports.py / nafta-imports.py): every
row is cleaned and normalized; a single unparseable Value cell aborts the
run (`none`) before the output artifact is written. -/
def harmonize : List RawTradeRecord → Option (List NormalizedRecord)
  | [] => some []
  | r :: rs =>
    match normalizeRecord r, harmonize rs with
    | some nr, some l => some (nr :: l)
    | _, _ => none

/-- A row of either side after the projection at combined.py lines 26–27:
`exports_df[['Time', 'Date', 'Year', 'Month', 'Country', 'Value ($US)']]`.
Note `Month_Num` is not among the kept columns. -/
structure MergeInRow where
  Time : String
  Date : Option String
  Year : String
  Month : String
  Country : String
  Value : FVal
deriving DecidableEq, Repr

/-- The projection at combined.py lines 26–27, applied to one row: keep
Time, Date, Year, Month, Country and the value column, drop Month_Num. -/
def project (r : NormalizedRecord) : MergeInRow :=
  { Time := r.Time, Date := r.Date, Year := r.Year, Month := r.Month
    Country := r.Country, Value := r.Value }

/-- The composite merge key of combined.py line 34:
`on=['Time', 'Date', 'Year', 'Month', 'Country']`. -/
def joinKey (r : MergeInRow) : String × Option String × String × String × String :=
  (r.Time, r.Date, r.Year, r.Month, r.Country)

/-- Shape of a merge-input row coming from the harmonizer: its Year, Month
and Date key components are the Period Normalizer's functions of its Time. -/
def MergeInRow.shape (x : MergeInRow) : Prop :=
  x.Year = periodYear x.Time ∧ x.Month = periodMonth x.Time ∧ x.Date = periodDate x.Time

/-- A row of the merged frame (combined.py line 34), before the derived
columns are added: the key columns plus `Exports` and `Imports`, either of
which is NaN when that side had no row for the key. -/
structure MergedRow where
  Time : String
  Date : Option String
  Year : String
  Month : String
  Country : String
  Exports : FVal
  Imports : FVal
deriving DecidableEq, Repr

/-- `pd.merge(exports_df, imports_df, on=[...], how='outer')` (combined.py
line 34), as the multiset of result rows: each left row paired with every
key-matching right row (NaN imports when there is none), then the right
rows no left row matches (NaN exports).  pandas orders the result
differently, but no row order is contractual for the output artifact. -/
def outerMerge (es imps : List MergeInRow) : List MergedRow :=
  (es.flatMap fun e =>
    let ms := imps.filter (fun i => decide (joinKey i = joinKey e))
    if ms.isEmpty then
      [{ Time := e.Time, Date := e.Date, Year := e.Year, Month := e.Month
         Country := e.Country, Exports := e.Value, Imports := FVal.nan }]
    else ms.map fun i =>
      { Time := e.Time, Date := e.Date, Year := e.Year, Month := e.Month
        Country := e.Country, Exports := e.Value, Imports := i.Value })
  ++ ((imps.filter fun i => !(es.any fun e => decide (joinKey e = joinKey i))).map
      fun i =>
      { Time := i.Time, Date := i.Date, Year := i.Year, Month := i.Month
        Country := i.Country, Exports := FVal.nan, Imports := i.Value })

/-- pandas `sum` over a float column with the default `skipna=True`:
NaN cells are skipped, the rest are added (0.0 when nothing remains). -/
def skipnaSum (l : List FVal) : FVal :=
  (l.filter fun v => decide (v ≠ FVal.nan)).foldl FVal.add (FVal.fin 0)

/-- `merged.groupby('Time')[col].transform('sum')` (combined.py lines
43–44), evaluated for the group of one Time label: the skip-NaN sum of the
column over every merged row carrying that label. -/
def groupSum (rows : List MergedRow) (f : MergedRow → FVal) (t : String) : FVal :=
  skipnaSum ((rows.filter fun r => decide (r.Time = t)).map f)

/-- One row of the fact table `nafta_trade_metrics.csv`: the merged columns
plus the six derived metric columns of combined.py lines 37–45. -/
structure TradeFactRow where
  Time : String
  Date : Option String
  Year : String
  Month : String
  Country : String
  Exports : FVal
  Imports : FVal
  Trade_Balance : FVal
  Trade_Volume : FVal
  Export_Import_Ratio : FVal
  Export_Share : FVal
  Import_Share : FVal
  RCA_Index : FVal
deriving DecidableEq, Repr

/-- The derived columns of combined.py lines 37–45, evaluated on one merged
row (`merged` is the whole merged frame, needed for the grouped share
denominators). -/
def deriveRow (merged : List MergedRow) (r : MergedRow) : TradeFactRow :=
  let eShare := FVal.div r.Exports (groupSum merged (fun x => x.Exports) r.Time)
  let iShare := FVal.div r.Imports (groupSum merged (fun x => x.Imports) r.Time)
  { Time := r.Time, Date := r.Date, Year := r.Year, Month := r.Month
    Country := r.Country, Exports := r.Exports, Imports := r.Imports
    Trade_Balance := FVal.sub r.Exports r.Imports
    Trade_Volume := FVal.add r.Exports r.Imports
    Export_Import_Ratio := FVal.div r.Exports r.Imports
    Export_Share := eShare
    Import_Share := iShare
    RCA_Index := FVal.div eShare iShare }

/-- `calculate_trade_metrics` (combined.py lines 24–47): project both
sides, outer-merge them, and add the derived metric columns row by row. -/
def calculate_trade_metrics (exports_df imports_df : List NormalizedRecord) :
    List TradeFactRow :=
  let es := exports_df.map project
  let imps := imports_df.map project
  let merged := outerMerge es imps
  merged.map (deriveRow merged)

/-- The whole pipeline: harmonize both sides (nafta-exports.py /
nafta-imports.py), then compute the fact table (combined.py).  `none` when
either harmonizer run aborts on a parse error, in which case no fact table
is produced. -/
def runPipeline (exportsRaw importsRaw : List RawTradeRecord) :
    Option (List TradeFactRow) :=
  match harmonize exportsRaw, harmonize importsRaw with
  | some es, some imps => some (calculate_trade_metrics es imps)
  | _, _ => none

/-- A cell of the delimited output artifact: a string, or a float
(NaN covering missing). -/
inductive Cell where
  | str : String → Cell
  | num : FVal → Cell
deriving DecidableEq, Repr

/-- An Option String cell as it sits in the frame: the string, or NaN. -/
def optCell : Option String → Cell
  | some s => Cell.str s
  | none => Cell.num FVal.nan

/-- One fact-table row as the labelled cells `to_csv` writes (combined.py
line 57), in the frame's column order: the merged frame's columns (left
side's columns, then the right-only column `Imports`), then the derived
columns in assignment order (combined.py lines 37–45). -/
def TradeFactRow.cells (r : TradeFactRow) : List (String × Cell) :=
  [("Time", Cell.str r.Time), ("Date", optCell r.Date), ("Year", Cell.str r.Year),
   ("Month", Cell.str r.Month), ("Country", Cell.str r.Country),
   ("Exports", Cell.num r.Exports), ("Imports", Cell.num r.Imports),
   ("Trade_Balance", Cell.num r.Trade_Balance), ("Trade_Volume", Cell.num r.Trade_Volume),
   ("Export_Import_Ratio", Cell.num r.Export_Import_Ratio),
   ("Export_Share", Cell.num r.Export_Share), ("Import_Share", Cell.num r.Import_Share),
   ("RCA_Index", Cell.num r.RCA_Index)]

/-- The column header of `nafta_trade_metrics.csv` as combined.py produces
it: the five merge-key columns, the two value columns, the six derived
columns.  `Month_Num` is not among them (it is dropped at combined.py
lines 26–27). -/
def outputColumns : List String :=
  ["Time", "Date", "Year", "Month", "Country", "Exports", "Imports",
   "Trade_Balance", "Trade_Volume", "Export_Import_Ratio",
   "Export_Share", "Import_Share", "RCA_Index"]

end Tariffs

namespace Tariffs

/- ### Small facts about the embedded float arithmetic -/

lemma FVal.nan_add (a : FVal) : FVal.add FVal.nan a = FVal.nan := by cases a <;> rfl

lemma FVal.add_nan (a : FVal) : FVal.add a FVal.nan = FVal.nan := by cases a <;> rfl

lemma FVal.nan_sub (a : FVal) : FVal.sub FVal.nan a = FVal.nan := by cases a <;> rfl

lemma FVal.sub_nan (a : FVal) : FVal.sub a FVal.nan = FVal.nan := by cases a <;> rfl

lemma FVal.nan_div (a : FVal) : FVal.div FVal.nan a = FVal.nan := by cases a <;> rfl

lemma FVal.div_nan (a : FVal) : FVal.div a FVal.nan = FVal.nan := by cases a <;> rfl

/- ### C9: comma removal in Value cleaning -/

/-- C9: Value cleaning removes every comma from the string regardless of
position, with no validation of thousands-grouping: "12,34" parses to the
float 1234 and ",5," to 5 (no ParseError); and in general no comma survives
`stripCommas`. -/
theorem c9_comma_stripping :
    parseValue "12,34" = some 1234 ∧ parseValue ",5," = some 5 ∧
    ∀ s : String, (stripCommas s).data.all (fun c => !(c == ',')) = true := by
  refine ⟨?_, ?_, ?_⟩
  · simp +decide [parseValue, stripCommas, parseFloat, digitsVal]
  · simp +decide [parseValue, stripCommas, parseFloat, digitsVal]
  · intro s
    simp [stripCommas, List.all_eq_true, List.mem_filter]

/- ### C4: Value parsing and the abort on a non-numeric cell -/

/-- C4: "1,234,567.89" parses to the float 1234567.89; and whenever any
input record's Value cell does not parse after comma removal, the whole
harmonizer run yields `none` — the model of the raised ParseError: the run
aborts and no output artifact is produced (there is no partial output a
`none` run could carry). -/
theorem c4_parse_error_aborts :
    parseValue "1,234,567.89" = some (123456789 / 100) ∧
    ∀ (rs : List RawTradeRecord) (r : RawTradeRecord),
      r ∈ rs → parseValue r.Value = none → harmonize rs = none := by
  constructor
  · simp +decide [parseValue, stripCommas, parseFloat, digitsVal]
    norm_num
  · intro rs r hmem hbad
    induction rs with
    | nil => cases hmem
    | cons hd tl ih =>
      rcases List.mem_cons.mp hmem with rfl | hmem'
      · simp [harmonize, normalizeRecord, hbad]
      · have htl : harmonize tl = none := ih hmem'
        simp only [harmonize, htl]
        cases normalizeRecord hd <;> rfl

/-- C4, witness: the concrete scenario of the claim — a Value cell "abc"
aborts the run of a one-row input. -/
theorem c4_witness :
    harmonize [{ Time := "2021", Country := "Canada", Value := "abc" }] = none :=
  c4_parse_error_aborts.2 [{ Time := "2021", Country := "Canada", Value := "abc" }]
    { Time := "2021", Country := "Canada", Value := "abc" }
    (by simp) (by simp +decide [parseValue, stripCommas, parseFloat])

end Tariffs

namespace Tariffs

/- ### C6: the end-to-end single-row scenario -/

/-- C6: the end-to-end scenario — exports [{Time:"2021", Country:"Canada",
Value:"1,000"}] and imports [{Time:"2021", Country:"Canada", Value:"500"}]
produce exactly one output row with Year 2021, Month Annual, Exports 1000,
Imports 500, Trade_Balance 500, Trade_Volume 1500, Export_Import_Ratio 2,
Export_Share 1, Import_Share 1, RCA_Index 1 (the share denominators being
the sums over the group of the full Time label "2021"). -/
theorem c6_end_to_end :
    runPipeline [{ Time := "2021", Country := "Canada", Value := "1,000" }]
                [{ Time := "2021", Country := "Canada", Value := "500" }] =
      some [{ Time := "2021", Date := some "2021", Year := "2021", Month := "Annual",
              Country := "Canada", Exports := FVal.fin 1000, Imports := FVal.fin 500,
              Trade_Balance := FVal.fin 500, Trade_Volume := FVal.fin 1500,
              Export_Import_Ratio := FVal.fin 2, Export_Share := FVal.fin 1,
              Import_Share := FVal.fin 1, RCA_Index := FVal.fin 1 }] := by
  simp +decide [runPipeline, harmonize, normalizeRecord, parseValue, stripCommas, parseFloat,
    digitsVal, periodDate, periodYear, periodMonth, month_map, calculate_trade_metrics,
    outerMerge, project, joinKey, deriveRow, groupSum, skipnaSum, FVal.sub, FVal.add,
    FVal.neg, FVal.div]
  norm_num

/- ### C2: month names outside the table do NOT abort the run -/

/-- C2, counterexample: the record {Time:"Blah 2021"} has the extracted
Month "Blah", outside the twelve calendar names and "Annual"; yet the
harmonizer run does not fail — it completes with Month_Num (and Date)
silently set to missing, refuting the claim that it fails loudly. -/
theorem c2_counterexample :
    harmonize [{ Time := "Blah 2021", Country := "Canada", Value := "1" }] =
      some [{ Time := "Blah 2021", Date := none, Year := "2021", Month := "Blah",
              Month_Num := none, Country := "Canada", Value := FVal.fin 1 }] ∧
    month_map "Blah" = none := by
  constructor
  · simp +decide [harmonize, normalizeRecord, parseValue, stripCommas, parseFloat,
      digitsVal, periodDate, periodYear, periodMonth, month_map]
  · rfl

/-- C2 (amended): a Month name outside the static table never aborts the
run.  Whenever every Value cell parses, the harmonizer succeeds, and each
output record whose Month is outside `month_map` carries a silently missing
(NaN) Month_Num and a missing Date — the pandas `.map`/masked-concat
behaviour — instead of an error. -/
theorem c2_unknown_month_is_silent (rs : List RawTradeRecord)
    (h : ∀ r ∈ rs, (parseValue r.Value).isSome = true) :
    ∃ l, harmonize rs = some l ∧
      ∀ nr ∈ l, month_map nr.Month = none → nr.Month_Num = none ∧ nr.Date = none := by
  induction rs with
  | nil => exact ⟨[], rfl, by simp⟩
  | cons hd tl ih =>
    obtain ⟨q, hq⟩ := Option.isSome_iff_exists.mp (h hd (List.mem_cons_self hd tl))
    obtain ⟨l, hl, hprop⟩ := ih (fun r hr => h r (List.mem_cons_of_mem _ hr))
    refine ⟨{ Time := hd.Time, Date := periodDate hd.Time, Year := periodYear hd.Time,
              Month := periodMonth hd.Time,
              Month_Num := month_map (periodMonth hd.Time),
              Country := hd.Country, Value := FVal.fin q } :: l, ?_, ?_⟩
    · simp [harmonize, normalizeRecord, parseValue] at hq ⊢
      simp [hq, hl]
    · intro nr hmem hnone
      rcases List.mem_cons.mp hmem with rfl | hmem'
      · simp only at hnone
        have hA : periodMonth hd.Time ≠ "Annual" := by
          intro he
          rw [he] at hnone
          simp [month_map] at hnone
        refine ⟨hnone, ?_⟩
        simp [periodDate, hA, hnone]
      · exact hprop nr hmem' hnone

/- ### C1: Month_Num is not carried through the join -/

/-- C1, counterexample: on a concrete harmonized input pair, the output
fact table's columns are the 13 columns without Month_Num — the projection
at combined.py lines 26–27 drops Month_Num before the merge — refuting the
claimed 14-column schema with Month_Num present in every row. -/
theorem c1_counterexample :
    ((calculate_trade_metrics
        [{ Time := "2021", Date := some "2021", Year := "2021", Month := "Annual",
           Month_Num := some "00", Country := "Canada", Value := FVal.fin 1000 }]
        [{ Time := "2021", Date := some "2021", Year := "2021", Month := "Annual",
           Month_Num := some "00", Country := "Canada", Value := FVal.fin 500 }]).map
      (fun r => r.cells.map Prod.fst)) = [outputColumns] ∧
    "Month_Num" ∉ outputColumns ∧
    outputColumns ≠ ["Time", "Date", "Year", "Month", "Month_Num", "Country", "Exports",
      "Imports", "Trade_Balance", "Trade_Volume", "Export_Import_Ratio",
      "Export_Share", "Import_Share", "RCA_Index"] := by
  refine ⟨?_, by decide, by decide⟩
  simp +decide [calculate_trade_metrics, outerMerge, project, joinKey, deriveRow,
    TradeFactRow.cells, outputColumns, optCell]

/-- C1 (amended): Month_Num is dropped by the pre-merge projection and is
not carried through the join: for every input pair, every row of the output
fact table carries exactly the columns Time, Date, Year, Month, Country,
Exports, Imports, Trade_Balance, Trade_Volume, Export_Import_Ratio,
Export_Share, Import_Share, RCA_Index — with no Month_Num column.  (Month
itself is part of the join key and is present in every row.) -/
theorem c1_month_num_dropped (es imps : List NormalizedRecord) :
    (calculate_trade_metrics es imps).map (fun r => r.cells.map Prod.fst) =
      List.replicate (calculate_trade_metrics es imps).length outputColumns ∧
    "Month_Num" ∉ outputColumns := by
  constructor
  · have h : ∀ l : List TradeFactRow,
        l.map (fun r => r.cells.map Prod.fst) = List.replicate l.length outputColumns := by
      intro l
      induction l with
      | nil => rfl
      | cons hd tl ih => simp [ih, TradeFactRow.cells, outputColumns, List.replicate_succ]
    exact h _
  · decide

end Tariffs

namespace Tariffs

/- ### C7: division-by-zero semantics of the ratio columns -/

/-- C7, counterexample: a joined row with Imports = 0 and the nonzero
Exports = −100 has Export_Import_Ratio = −infinity, not +infinity as the
claim states for every nonzero Exports (the code follows the signed IEEE
rule, not an unconditional +infinity). -/
theorem c7_counterexample :
    ((calculate_trade_metrics
        [{ Time := "2021", Date := some "2021", Year := "2021", Month := "Annual",
           Month_Num := some "00", Country := "Canada", Value := FVal.fin (-100) }]
        [{ Time := "2021", Date := some "2021", Year := "2021", Month := "Annual",
           Month_Num := some "00", Country := "Canada", Value := FVal.fin 0 }]).map
      (fun r => (r.Imports, r.Exports, r.Export_Import_Ratio))) =
      [(FVal.fin 0, FVal.fin (-100), FVal.ninf)] ∧
    (FVal.fin (-100) ≠ FVal.fin 0) ∧ FVal.ninf ≠ FVal.pinf := by
  refine ⟨?_, by norm_num, by simp⟩
  simp +decide [calculate_trade_metrics, outerMerge, project, joinKey, deriveRow,
    groupSum, skipnaSum, FVal.sub, FVal.add, FVal.neg, FVal.div]

/-- C7 (amended): for a joined row with Imports = 0 and finite Exports q,
Export_Import_Ratio is +infinity when q > 0, −infinity when q < 0, and NaN
when q = 0; this is not fatal and no row is removed by the derivation step
(it maps the merged rows one-to-one); and RCA_Index obeys the same signed
division rule when Import_Share = 0 and Export_Share is finite. -/
theorem c7_division_by_zero (merged : List MergedRow) (r : MergedRow) (q : ℚ)
    (he : r.Exports = FVal.fin q) (hi : r.Imports = FVal.fin 0) :
    ((0 < q → (deriveRow merged r).Export_Import_Ratio = FVal.pinf) ∧
     (q < 0 → (deriveRow merged r).Export_Import_Ratio = FVal.ninf) ∧
     (q = 0 → (deriveRow merged r).Export_Import_Ratio = FVal.nan)) ∧
    (∀ s : ℚ, (deriveRow merged r).Import_Share = FVal.fin 0 →
       (deriveRow merged r).Export_Share = FVal.fin s →
       ((0 < s → (deriveRow merged r).RCA_Index = FVal.pinf) ∧
        (s < 0 → (deriveRow merged r).RCA_Index = FVal.ninf) ∧
        (s = 0 → (deriveRow merged r).RCA_Index = FVal.nan))) ∧
    (∀ es imps : List NormalizedRecord,
       (calculate_trade_metrics es imps).length =
         (outerMerge (es.map project) (imps.map project)).length) := by
  have hratio : (deriveRow merged r).Export_Import_Ratio = FVal.div r.Exports r.Imports := rfl
  have hrca : (deriveRow merged r).RCA_Index =
      FVal.div (deriveRow merged r).Export_Share (deriveRow merged r).Import_Share := rfl
  refine ⟨⟨?_, ?_, ?_⟩, ?_, ?_⟩
  · intro h0
    simp [hratio, he, hi, FVal.div, h0.ne', h0]
  · intro h0
    simp [hratio, he, hi, FVal.div, h0.ne, not_lt.mpr h0.le]
  · intro h0
    simp [hratio, he, hi, FVal.div, h0]
  · intro s hIs hEs
    rw [hrca, hIs, hEs]
    refine ⟨?_, ?_, ?_⟩
    · intro h0
      simp [FVal.div, h0.ne', h0]
    · intro h0
      simp [FVal.div, h0.ne, not_lt.mpr h0.le]
    · intro h0
      simp [FVal.div, h0]
  · intro es imps
    simp [calculate_trade_metrics]

/-- C7, witness: a concrete merged group of two rows in which the first row
has Exports 3, Imports 0 — its ratio is +infinity, and with Export_Share 1
and Import_Share 0 its RCA_Index is +infinity too. -/
theorem c7_witness :
    (deriveRow
      [{ Time := "2021", Date := some "2021", Year := "2021", Month := "Annual",
         Country := "Canada", Exports := FVal.fin 3, Imports := FVal.fin 0 },
       { Time := "2021", Date := some "2021", Year := "2021", Month := "Annual",
         Country := "Mexico", Exports := FVal.fin 0, Imports := FVal.fin 5 }]
      { Time := "2021", Date := some "2021", Year := "2021", Month := "Annual",
        Country := "Canada", Exports := FVal.fin 3, Imports := FVal.fin 0 }).Export_Import_Ratio
      = FVal.pinf ∧
    (deriveRow
      [{ Time := "2021", Date := some "2021", Year := "2021", Month := "Annual",
         Country := "Canada", Exports := FVal.fin 3, Imports := FVal.fin 0 },
       { Time := "2021", Date := some "2021", Year := "2021", Month := "Annual",
         Country := "Mexico", Exports := FVal.fin 0, Imports := FVal.fin 5 }]
      { Time := "2021", Date := some "2021", Year := "2021", Month := "Annual",
        Country := "Canada", Exports := FVal.fin 3, Imports := FVal.fin 0 }).RCA_Index
      = FVal.pinf := by
  have h := c7_division_by_zero
    [{ Time := "2021", Date := some "2021", Year := "2021", Month := "Annual",
       Country := "Canada", Exports := FVal.fin 3, Imports := FVal.fin 0 },
     { Time := "2021", Date := some "2021", Year := "2021", Month := "Annual",
       Country := "Mexico", Exports := FVal.fin 0, Imports := FVal.fin 5 }]
    { Time := "2021", Date := some "2021", Year := "2021", Month := "Annual",
      Country := "Canada", Exports := FVal.fin 3, Imports := FVal.fin 0 }
    3 rfl rfl
  refine ⟨h.1.1 (by norm_num), ?_⟩
  have hIs : (deriveRow
      [{ Time := "2021", Date := some "2021", Year := "2021", Month := "Annual",
         Country := "Canada", Exports := FVal.fin 3, Imports := FVal.fin 0 },
       { Time := "2021", Date := some "2021", Year := "2021", Month := "Annual",
         Country := "Mexico", Exports := FVal.fin 0, Imports := FVal.fin 5 }]
      { Time := "2021", Date := some "2021", Year := "2021", Month := "Annual",
        Country := "Canada", Exports := FVal.fin 3, Imports := FVal.fin 0 }).Import_Share
      = FVal.fin 0 := by
    simp +decide [deriveRow, groupSum, skipnaSum, FVal.add, FVal.div]
  have hEs : (deriveRow
      [{ Time := "2021", Date := some "2021", Year := "2021", Month := "Annual",
         Country := "Canada", Exports := FVal.fin 3, Imports := FVal.fin 0 },
       { Time := "2021", Date := some "2021", Year := "2021", Month := "Annual",
         Country := "Mexico", Exports := FVal.fin 0, Imports := FVal.fin 5 }]
      { Time := "2021", Date := some "2021", Year := "2021", Month := "Annual",
        Country := "Canada", Exports := FVal.fin 3, Imports := FVal.fin 0 }).Export_Share
      = FVal.fin 1 := by
    simp +decide [deriveRow, groupSum, skipnaSum, FVal.add, FVal.div]
  exact (h.2.1 1 hIs hEs).1 (by norm_num)

end Tariffs

namespace Tariffs

/- ### Symbolic facts about the regex scanners -/

lemma isWhitespace_eq_false_of_isDigit (c : Char) (h : c.isDigit = true) :
    c.isWhitespace = false := by
  by_contra hw
  rw [Bool.not_eq_false] at hw
  simp [Char.isWhitespace] at hw
  rcases hw with ((h1 | h1) | h1) | h1 <;> subst h1 <;> exact absurd h (by decide)

lemma takeWhile_append_cons (w : List Char) (a : Char) (r : List Char)
    (hw : ∀ c ∈ w, isWordChar c = true) (ha : isWordChar a = false) :
    (w ++ a :: r).takeWhile isWordChar = w := by
  induction w with
  | nil => simp [List.takeWhile_cons, ha]
  | cons hd tl ih =>
    simp [List.takeWhile_cons, hw hd (List.mem_cons_self hd tl),
      ih (fun c hc => hw c (List.mem_cons_of_mem hd hc))]

lemma digits4_eq_false (c : Char) (t : List Char) (h : c.isDigit = false) :
    digits4 (c :: t) = false := by
  rcases t with _ | ⟨a, _ | ⟨b, _ | ⟨d, t'⟩⟩⟩ <;> simp [digits4, h]

lemma findYear_append (l rest : List Char) (h : ∀ c ∈ l, c.isDigit = false) :
    findYear (l ++ rest) = findYear rest := by
  induction l with
  | nil => rfl
  | cons c t ih =>
    rw [List.cons_append, findYear,
      digits4_eq_false c _ (h c (List.mem_cons_self c t))]
    simpa using ih (fun c' hc' => h c' (List.mem_cons_of_mem c hc'))

lemma findYear_digits (d1 d2 d3 d4 : Char) (h1 : d1.isDigit = true)
    (h2 : d2.isDigit = true) (h3 : d3.isDigit = true) (h4 : d4.isDigit = true) :
    findYear [d1, d2, d3, d4] = some [d1, d2, d3, d4] := by
  simp [findYear, digits4, h1, h2, h3, h4]

lemma wsDigits4_space (d1 d2 d3 d4 : Char) (rest : List Char) (h1 : d1.isDigit = true)
    (h2 : d2.isDigit = true) (h3 : d3.isDigit = true) (h4 : d4.isDigit = true) :
    wsDigits4 (' ' :: d1 :: d2 :: d3 :: d4 :: rest) = true := by
  simp +decide [wsDigits4, List.dropWhile_cons,
    isWhitespace_eq_false_of_isDigit d1 h1, digits4, h1, h2, h3, h4]

/-- The capture group of `(\w+)\s+\d\x7b4\x7d` on a label made of a word
token, one space and four digits is the whole word token: the match starts
at position 0 (leftmost) and the greedy `\w+` takes the whole token. -/
lemma findMonth_token (w : List Char) (d1 d2 d3 d4 : Char) (rest : List Char)
    (hw : w ≠ []) (hword : ∀ c ∈ w, isWordChar c = true)
    (h1 : d1.isDigit = true) (h2 : d2.isDigit = true) (h3 : d3.isDigit = true)
    (h4 : d4.isDigit = true) :
    findMonth (w ++ ' ' :: d1 :: d2 :: d3 :: d4 :: rest) = some w := by
  obtain ⟨c, w', rfl⟩ := List.exists_cons_of_ne_nil hw
  rw [List.cons_append, findMonth]
  have htw : ((c :: (w' ++ ' ' :: d1 :: d2 :: d3 :: d4 :: rest)).takeWhile isWordChar)
      = c :: w' := by
    have h := takeWhile_append_cons (c :: w') ' '
      (d1 :: d2 :: d3 :: d4 :: rest) hword (by decide)
    simpa using h
  rw [htw]
  have hdrop : (c :: (w' ++ ' ' :: d1 :: d2 :: d3 :: d4 :: rest)).drop (w'.length + 1)
      = ' ' :: d1 :: d2 :: d3 :: d4 :: rest := by
    have h := List.drop_left (c :: w') (' ' :: d1 :: d2 :: d3 :: d4 :: rest)
    simp only [List.length_cons] at h
    exact h
  have htake : (c :: (w' ++ ' ' :: d1 :: d2 :: d3 :: d4 :: rest)).take (w'.length + 1)
      = c :: w' := by
    have h := List.take_left (c :: w') (' ' :: d1 :: d2 :: d3 :: d4 :: rest)
    simp only [List.length_cons] at h
    exact h
  simp [tryLen, List.length_cons, hdrop, htake, wsDigits4_space d1 d2 d3 d4 rest h1 h2 h3 h4]

lemma wsDigits4_eq_false (l : List Char) (h : ∀ c ∈ l, c.isWhitespace = false) :
    wsDigits4 l = false := by
  cases l with
  | nil => rfl
  | cons c t => simp [wsDigits4, h c (List.mem_cons_self c t)]

lemma tryLen_eq_none (l : List Char) (j : Nat) (h : ∀ c ∈ l, c.isWhitespace = false) :
    tryLen l j = none := by
  induction j with
  | zero => rfl
  | succ j ih =>
    rw [tryLen, wsDigits4_eq_false _ (fun c hc => h c (List.drop_subset _ _ hc))]
    simpa using ih

/-- A label with no whitespace at all has no `(\w+)\s+\d\x7b4\x7d` match. -/
lemma findMonth_eq_none (l : List Char) (h : ∀ c ∈ l, c.isWhitespace = false) :
    findMonth l = none := by
  induction l with
  | nil => rfl
  | cons c t ih =>
    rw [findMonth, tryLen_eq_none _ _ h]
    exact ih (fun c' hc' => h c' (List.mem_cons_of_mem c hc'))

lemma month_map_mem (m ord : String) (hm : month_map m = some ord) :
    m ∈ ["January", "February", "March", "April", "May", "June", "July", "August",
         "September", "October", "November", "December", "Annual"] := by
  unfold month_map at hm
  split at hm <;> simp_all

lemma month_map_chars (m ord : String) (hm : month_map m = some ord) :
    m.data ≠ [] ∧
    ∀ c ∈ m.data, isWordChar c = true ∧ c.isDigit = false ∧ c.isWhitespace = false := by
  have hmem := month_map_mem m ord hm
  fin_cases hmem <;> decide

/- ### C3: a non-calendar leading token does NOT resolve to Annual -/

/-- C3, counterexample: the label "Blah 2021" has a non-calendar leading
token and a 4-digit year, yet the Period Normalizer resolves Month to
"Blah" — not to "Annual" as the claim states. -/
theorem c3_counterexample :
    periodMonth "Blah 2021" = "Blah" ∧ ("Blah" : String) ≠ "Annual" := by
  constructor <;> decide

/-- C3 (amended): for a Time label formed of a word token, one space and a
4-digit year, the Period Normalizer resolves Month to that token itself —
calendar name or not — never to "Annual"; "Annual" arises only when the
`(\w+)\s+\d\x7b4\x7d` pattern does not match at all (e.g. a bare year). -/
theorem c3_token_kept (w : List Char) (d1 d2 d3 d4 : Char)
    (hw : w ≠ []) (hword : ∀ c ∈ w, isWordChar c = true)
    (h1 : d1.isDigit = true) (h2 : d2.isDigit = true) (h3 : d3.isDigit = true)
    (h4 : d4.isDigit = true) :
    periodMonth ⟨w ++ ' ' :: [d1, d2, d3, d4]⟩ = ⟨w⟩ := by
  unfold periodMonth
  rw [show (⟨w ++ ' ' :: [d1, d2, d3, d4]⟩ : String).data
      = w ++ ' ' :: d1 :: d2 :: d3 :: d4 :: [] from rfl]
  rw [findMonth_token w d1 d2 d3 d4 [] hw hword h1 h2 h3 h4]

/-- C3, witness: the claim's own example "Blah 2021", through the amended
theorem. -/
theorem c3_witness :
    periodMonth ⟨['B', 'l', 'a', 'h'] ++ ' ' :: ['2', '0', '2', '1']⟩
      = ⟨['B', 'l', 'a', 'h']⟩ :=
  c3_token_kept ['B', 'l', 'a', 'h'] '2' '0' '2' '1' (by decide) (by decide)
    (by decide) (by decide) (by decide) (by decide)

end Tariffs

namespace Tariffs

/- ### C8: well-formed "<Month> <Year>" labels and bare-year labels -/

/-- C8: for a Time label "<Month> <Year>" with a calendar month name and a
4-digit year, the Period Normalizer yields Month = that month name,
Month_Num = its fixed table ordinal, and Date = "<Year>-<Ordinal>-01"; for
a bare 4-digit year label, Month = "Annual", Month_Num = "00", and Date is
the year alone. -/
theorem c8_period_normalizer (m ord : String) (d1 d2 d3 d4 : Char)
    (hm : month_map m = some ord) (hAnn : m ≠ "Annual")
    (h1 : d1.isDigit = true) (h2 : d2.isDigit = true)
    (h3 : d3.isDigit = true) (h4 : d4.isDigit = true) :
    periodMonth (m ++ " " ++ ⟨[d1, d2, d3, d4]⟩) = m ∧
    month_map (periodMonth (m ++ " " ++ ⟨[d1, d2, d3, d4]⟩)) = some ord ∧
    periodYear (m ++ " " ++ ⟨[d1, d2, d3, d4]⟩) = ⟨[d1, d2, d3, d4]⟩ ∧
    periodDate (m ++ " " ++ ⟨[d1, d2, d3, d4]⟩) =
      some ((⟨[d1, d2, d3, d4]⟩ : String) ++ "-" ++ ord ++ "-01") ∧
    periodMonth ⟨[d1, d2, d3, d4]⟩ = "Annual" ∧
    month_map "Annual" = some "00" ∧
    periodYear ⟨[d1, d2, d3, d4]⟩ = ⟨[d1, d2, d3, d4]⟩ ∧
    periodDate ⟨[d1, d2, d3, d4]⟩ = some ⟨[d1, d2, d3, d4]⟩ := by
  obtain ⟨hne, hchars⟩ := month_map_chars m ord hm
  obtain ⟨l⟩ := m
  have hdata : (((⟨l⟩ : String) ++ " " ++ (⟨[d1, d2, d3, d4]⟩ : String))).data
      = l ++ ' ' :: d1 :: d2 :: d3 :: d4 :: [] := by
    show (l ++ [' ']) ++ [d1, d2, d3, d4] = l ++ ' ' :: d1 :: d2 :: d3 :: d4 :: []
    simp
  have hPM : periodMonth ((⟨l⟩ : String) ++ " " ++ (⟨[d1, d2, d3, d4]⟩ : String))
      = (⟨l⟩ : String) := by
    unfold periodMonth
    rw [hdata, findMonth_token l d1 d2 d3 d4 [] hne
      (fun c hc => (hchars c hc).1) h1 h2 h3 h4]
  have hfy : findYear (l ++ ' ' :: d1 :: d2 :: d3 :: d4 :: []) = some [d1, d2, d3, d4] := by
    rw [findYear_append l _ (fun c hc => (hchars c hc).2.1),
      show (' ' :: d1 :: d2 :: d3 :: d4 :: [] : List Char)
        = [' '] ++ [d1, d2, d3, d4] from rfl,
      findYear_append [' '] _ (by decide)]
    exact findYear_digits d1 d2 d3 d4 h1 h2 h3 h4
  have hPY : periodYear ((⟨l⟩ : String) ++ " " ++ (⟨[d1, d2, d3, d4]⟩ : String))
      = (⟨[d1, d2, d3, d4]⟩ : String) := by
    unfold periodYear
    rw [hdata, hfy]
  have hPD : periodDate ((⟨l⟩ : String) ++ " " ++ (⟨[d1, d2, d3, d4]⟩ : String))
      = some ((⟨[d1, d2, d3, d4]⟩ : String) ++ "-" ++ ord ++ "-01") := by
    simp only [periodDate, hPM, hPY]
    rw [if_neg hAnn, hm]
    rfl
  have hws : ∀ c ∈ [d1, d2, d3, d4], c.isWhitespace = false := by
    intro c hc
    simp only [List.mem_cons, List.not_mem_nil, or_false] at hc
    rcases hc with rfl | rfl | rfl | rfl
    exacts [isWhitespace_eq_false_of_isDigit _ h1, isWhitespace_eq_false_of_isDigit _ h2,
      isWhitespace_eq_false_of_isDigit _ h3, isWhitespace_eq_false_of_isDigit _ h4]
  have hPMy : periodMonth (⟨[d1, d2, d3, d4]⟩ : String) = "Annual" := by
    unfold periodMonth
    rw [show ((⟨[d1, d2, d3, d4]⟩ : String)).data = [d1, d2, d3, d4] from rfl,
      findMonth_eq_none _ hws]
  have hPYy : periodYear (⟨[d1, d2, d3, d4]⟩ : String) = (⟨[d1, d2, d3, d4]⟩ : String) := by
    unfold periodYear
    rw [show ((⟨[d1, d2, d3, d4]⟩ : String)).data = [d1, d2, d3, d4] from rfl,
      findYear_digits d1 d2 d3 d4 h1 h2 h3 h4]
  have hPDy : periodDate (⟨[d1, d2, d3, d4]⟩ : String)
      = some (⟨[d1, d2, d3, d4]⟩ : String) := by
    simp [periodDate, hPMy, hPYy]
  exact ⟨hPM, by rw [hPM]; exact hm, hPY, hPD, hPMy, rfl, hPYy, hPDy⟩

/-- C8, witness: "March 2021" yields Month "March", ordinal "03" and Date
"2021-03-01"; the bare "2021" yields Annual / "00" / "2021". -/
theorem c8_witness :
    periodMonth ("March" ++ " " ++ (⟨['2', '0', '2', '1']⟩ : String)) = "March" ∧
    periodDate ("March" ++ " " ++ (⟨['2', '0', '2', '1']⟩ : String)) =
      some ((⟨['2', '0', '2', '1']⟩ : String) ++ "-" ++ "03" ++ "-01") ∧
    periodMonth (⟨['2', '0', '2', '1']⟩ : String) = "Annual" ∧
    periodDate (⟨['2', '0', '2', '1']⟩ : String) = some (⟨['2', '0', '2', '1']⟩ : String) :=
  ⟨(c8_period_normalizer "March" "03" '2' '0' '2' '1' rfl (by decide) (by decide)
      (by decide) (by decide) (by decide)).1,
   (c8_period_normalizer "March" "03" '2' '0' '2' '1' rfl (by decide) (by decide)
      (by decide) (by decide) (by decide)).2.2.2.1,
   (c8_period_normalizer "March" "03" '2' '0' '2' '1' rfl (by decide) (by decide)
      (by decide) (by decide) (by decide)).2.2.2.2.1,
   (c8_period_normalizer "March" "03" '2' '0' '2' '1' rfl (by decide) (by decide)
      (by decide) (by decide) (by decide)).2.2.2.2.2.2.2⟩

end Tariffs

namespace Tariffs

/- ### C10: grouped shares sum to 1 -/

lemma sum_map_div (qs : List ℚ) (S : ℚ) : (qs.map (fun q => q / S)).sum = qs.sum / S := by
  induction qs with
  | nil => simp
  | cons a t ih => simp [ih, add_div]

lemma skipnaSum_map_fin (qs : List ℚ) : skipnaSum (qs.map FVal.fin) = FVal.fin qs.sum := by
  have hfilter : (qs.map FVal.fin).filter (fun v => decide (v ≠ FVal.nan)) = qs.map FVal.fin := by
    induction qs with
    | nil => rfl
    | cons a t ih => simp_all [List.filter_cons]
  rw [skipnaSum, hfilter]
  suffices h : ∀ a : ℚ, (qs.map FVal.fin).foldl FVal.add (FVal.fin a) = FVal.fin (a + qs.sum) by
    simpa using h 0
  induction qs with
  | nil => intro a; simp
  | cons b t ih => intro a; simp [FVal.add, ih, add_assoc]

/-- In one Time group, when the grouped column is finite everywhere and its
skip-NaN sum is nonzero, the shares column / column-group-sum sums to 1. -/
lemma group_share_sum (merged : List MergedRow) (t : String) (f : MergedRow → FVal)
    (hfin : ∀ m ∈ merged.filter (fun r => decide (r.Time = t)), ∃ q : ℚ, f m = FVal.fin q)
    (hS : skipnaSum ((merged.filter fun r => decide (r.Time = t)).map f) ≠ FVal.fin 0) :
    skipnaSum ((merged.filter fun r => decide (r.Time = t)).map
      (fun m => FVal.div (f m) (groupSum merged f t))) = FVal.fin 1 := by
  set grp := merged.filter (fun r => decide (r.Time = t)) with hgrp
  have hmapeq : grp.map f = (grp.map (fun m => (f m).toQ)).map FVal.fin := by
    rw [List.map_map]
    refine List.map_congr_left ?_
    intro m hm
    obtain ⟨q, hq⟩ := hfin m hm
    simp [hq, FVal.toQ]
  have hgs : groupSum merged f t = FVal.fin (grp.map (fun m => (f m).toQ)).sum := by
    rw [groupSum, ← hgrp, hmapeq, skipnaSum_map_fin]
  have hsum_ne : (grp.map (fun m => (f m).toQ)).sum ≠ 0 := by
    intro h0
    apply hS
    rw [hmapeq, skipnaSum_map_fin, h0]
  have hshare : grp.map (fun m => FVal.div (f m) (groupSum merged f t))
      = ((grp.map (fun m => (f m).toQ)).map
          (fun q => q / (grp.map (fun m => (f m).toQ)).sum)).map FVal.fin := by
    rw [List.map_map, List.map_map]
    refine List.map_congr_left ?_
    intro m hm
    obtain ⟨q, hq⟩ := hfin m hm
    have htoq : (f m).toQ = q := by rw [hq]; rfl
    show FVal.div (f m) (groupSum merged f t)
        = FVal.fin ((f m).toQ / (grp.map (fun m => (f m).toQ)).sum)
    rw [htoq, hq, hgs]
    show (if (grp.map (fun m => (f m).toQ)).sum = 0
        then if q = 0 then FVal.nan else if 0 < q then FVal.pinf else FVal.ninf
        else FVal.fin (q / (grp.map (fun m => (f m).toQ)).sum))
      = FVal.fin (q / (grp.map (fun m => (f m).toQ)).sum)
    rw [if_neg hsum_ne]
  rw [hshare, skipnaSum_map_fin, sum_map_div, div_self hsum_ne]

/-- C10: for every Time group of the joined fact table whose rows all
carry a finite Exports value and whose Exports sum is nonzero, the group's
Export_Share values sum to exactly 1; and the analogous statement for
Import_Share over Imports. -/
theorem c10_shares_sum_to_one (es imps : List NormalizedRecord) (t : String) :
    ((∀ r ∈ (calculate_trade_metrics es imps).filter (fun r => decide (r.Time = t)),
        ∃ q : ℚ, r.Exports = FVal.fin q) →
     skipnaSum (((calculate_trade_metrics es imps).filter (fun r => decide (r.Time = t))).map
        (fun r => r.Exports)) ≠ FVal.fin 0 →
     skipnaSum (((calculate_trade_metrics es imps).filter (fun r => decide (r.Time = t))).map
        (fun r => r.Export_Share)) = FVal.fin 1) ∧
    ((∀ r ∈ (calculate_trade_metrics es imps).filter (fun r => decide (r.Time = t)),
        ∃ q : ℚ, r.Imports = FVal.fin q) →
     skipnaSum (((calculate_trade_metrics es imps).filter (fun r => decide (r.Time = t))).map
        (fun r => r.Imports)) ≠ FVal.fin 0 →
     skipnaSum (((calculate_trade_metrics es imps).filter (fun r => decide (r.Time = t))).map
        (fun r => r.Import_Share)) = FVal.fin 1) := by
  set merged := outerMerge (es.map project) (imps.map project) with hmerged
  have hfm : (calculate_trade_metrics es imps).filter (fun r => decide (r.Time = t))
      = (merged.filter (fun m => decide (m.Time = t))).map (deriveRow merged) := by
    rw [show calculate_trade_metrics es imps = merged.map (deriveRow merged) from rfl,
      List.filter_map]
    rfl
  have hmem_t : ∀ m ∈ merged.filter (fun m => decide (m.Time = t)), m.Time = t := by
    intro m hm
    have h := (List.mem_filter.mp hm).2
    simpa using h
  constructor
  · intro hfin hS
    rw [hfm] at hfin hS ⊢
    have hfin' : ∀ m ∈ merged.filter (fun m => decide (m.Time = t)),
        ∃ q : ℚ, m.Exports = FVal.fin q := by
      intro m hm
      exact hfin (deriveRow merged m) (List.mem_map_of_mem _ hm)
    have hS' : skipnaSum ((merged.filter (fun m => decide (m.Time = t))).map
        (fun m => m.Exports)) ≠ FVal.fin 0 := by
      rw [List.map_map] at hS
      exact hS
    have hmapshare : ((merged.filter (fun m => decide (m.Time = t))).map
          (deriveRow merged)).map (fun r => r.Export_Share)
        = (merged.filter (fun m => decide (m.Time = t))).map
            (fun m => FVal.div (m.Exports) (groupSum merged (fun x => x.Exports) t)) := by
      rw [List.map_map]
      refine List.map_congr_left ?_
      intro m hm
      show (deriveRow merged m).Export_Share = _
      rw [show (deriveRow merged m).Export_Share
          = FVal.div m.Exports (groupSum merged (fun x => x.Exports) m.Time) from rfl,
        hmem_t m hm]
    rw [hmapshare]
    exact group_share_sum merged t (fun x => x.Exports) hfin' hS'
  · intro hfin hS
    rw [hfm] at hfin hS ⊢
    have hfin' : ∀ m ∈ merged.filter (fun m => decide (m.Time = t)),
        ∃ q : ℚ, m.Imports = FVal.fin q := by
      intro m hm
      exact hfin (deriveRow merged m) (List.mem_map_of_mem _ hm)
    have hS' : skipnaSum ((merged.filter (fun m => decide (m.Time = t))).map
        (fun m => m.Imports)) ≠ FVal.fin 0 := by
      rw [List.map_map] at hS
      exact hS
    have hmapshare : ((merged.filter (fun m => decide (m.Time = t))).map
          (deriveRow merged)).map (fun r => r.Import_Share)
        = (merged.filter (fun m => decide (m.Time = t))).map
            (fun m => FVal.div (m.Imports) (groupSum merged (fun x => x.Imports) t)) := by
      rw [List.map_map]
      refine List.map_congr_left ?_
      intro m hm
      show (deriveRow merged m).Import_Share = _
      rw [show (deriveRow merged m).Import_Share
          = FVal.div m.Imports (groupSum merged (fun x => x.Imports) m.Time) from rfl,
        hmem_t m hm]
    rw [hmapshare]
    exact group_share_sum merged t (fun x => x.Imports) hfin' hS'

/-- C10, witness: two countries in the period "2021" with exports 30 and
70 — their Export_Share values sum to 1. -/
theorem c10_witness :
    skipnaSum (((calculate_trade_metrics
        [{ Time := "2021", Date := some "2021", Year := "2021", Month := "Annual",
           Month_Num := some "00", Country := "Canada", Value := FVal.fin 30 },
         { Time := "2021", Date := some "2021", Year := "2021", Month := "Annual",
           Month_Num := some "00", Country := "Mexico", Value := FVal.fin 70 }]
        []).filter (fun r => decide (r.Time = "2021"))).map
      (fun r => r.Export_Share)) = FVal.fin 1 :=
  (c10_shares_sum_to_one
    [{ Time := "2021", Date := some "2021", Year := "2021", Month := "Annual",
       Month_Num := some "00", Country := "Canada", Value := FVal.fin 30 },
     { Time := "2021", Date := some "2021", Year := "2021", Month := "Annual",
       Month_Num := some "00", Country := "Mexico", Value := FVal.fin 70 }]
    [] "2021").1
    (by
      intro r hr
      simp +decide [calculate_trade_metrics, outerMerge, project, joinKey, deriveRow,
        groupSum, skipnaSum, FVal.add, FVal.div, List.filter_cons] at hr
      rcases hr with rfl | rfl
      · exact ⟨30, rfl⟩
      · exact ⟨70, rfl⟩)
    (by
      simp +decide [calculate_trade_metrics, outerMerge, project, joinKey, deriveRow,
        groupSum, skipnaSum, FVal.add, FVal.div, List.filter_cons]
      norm_num)

end Tariffs

namespace Tariffs

/- ### C5: outer-join completeness and missing-value propagation -/

lemma project_shape (r : NormalizedRecord) (h : r.harmonizedShape) : (project r).shape := h

lemma joinKey_eq_iff (x y : MergeInRow) (hx : x.shape) (hy : y.shape) :
    joinKey x = joinKey y ↔ (x.Time = y.Time ∧ x.Country = y.Country) := by
  obtain ⟨hxY, hxM, hxD⟩ := hx
  obtain ⟨hyY, hyM, hyD⟩ := hy
  constructor
  · intro h
    simp only [joinKey, Prod.mk.injEq] at h
    exact ⟨h.1, h.2.2.2.2⟩
  · rintro ⟨ht, hc⟩
    simp [joinKey, Prod.mk.injEq, hxY, hxM, hxD, hyY, hyM, hyD, ht, hc]

lemma countP_eq_one_of_nodup {α β : Type} [DecidableEq β] (l : List α) (f : α → β) (b : β)
    (hnd : (l.map f).Nodup) (hex : ∃ a ∈ l, f a = b) :
    l.countP (fun a => decide (f a = b)) = 1 := by
  induction l with
  | nil => simp at hex
  | cons a t ih =>
    rw [List.map_cons, List.nodup_cons] at hnd
    obtain ⟨hnotin, hnd'⟩ := hnd
    by_cases hab : f a = b
    · have htail : t.countP (fun x => decide (f x = b)) = 0 := by
        rw [List.countP_eq_zero]
        intro x hx
        simp only [decide_eq_true_eq]
        intro hfx
        exact hnotin (by rw [hab, ← hfx]; exact List.mem_map_of_mem f hx)
      simp [List.countP_cons, hab, htail]
    · obtain ⟨a', ha', hfa'⟩ := hex
      rcases List.mem_cons.mp ha' with rfl | ha't
      · exact absurd hfa' hab
      · have h := ih hnd' ⟨a', ha't, hfa'⟩
        simp [List.countP_cons, hab, h]

end Tariffs

namespace Tariffs

lemma leftJoin_countP (imps' : List MergeInRow) (t c : String)
    (himps : ∀ x ∈ imps', x.shape)
    (hui : (imps'.map fun x => (x.Time, x.Country)).Nodup) :
    ∀ es' : List MergeInRow, (∀ x ∈ es', x.shape) →
    (es'.flatMap fun e =>
      if (imps'.filter (fun i => decide (joinKey i = joinKey e))).isEmpty then
        ([{ Time := e.Time, Date := e.Date, Year := e.Year, Month := e.Month
            Country := e.Country, Exports := e.Value, Imports := FVal.nan }] : List MergedRow)
      else (imps'.filter (fun i => decide (joinKey i = joinKey e))).map fun i =>
        ({ Time := e.Time, Date := e.Date, Year := e.Year, Month := e.Month
           Country := e.Country, Exports := e.Value, Imports := i.Value } : MergedRow)).countP
      (fun m => decide ((m.Time, m.Country) = (t, c)))
      = es'.countP (fun e => decide ((e.Time, e.Country) = (t, c))) := by
  intro es'
  induction es' with
  | nil => intro _; rfl
  | cons e tl ih =>
    intro hes
    have hetl : ∀ x ∈ tl, x.shape := fun x hx => hes x (List.mem_cons_of_mem e hx)
    have hse : e.shape := hes e (List.mem_cons_self e tl)
    rw [List.flatMap_cons, List.countP_append, ih hetl, List.countP_cons]
    by_cases htc : (e.Time, e.Country) = (t, c)
    · conv_rhs => rw [if_pos (by simpa using htc)]
      suffices hone :
          (if (imps'.filter (fun i => decide (joinKey i = joinKey e))).isEmpty then
            ([{ Time := e.Time, Date := e.Date, Year := e.Year, Month := e.Month
                Country := e.Country, Exports := e.Value, Imports := FVal.nan }] : List MergedRow)
          else (imps'.filter (fun i => decide (joinKey i = joinKey e))).map fun i =>
            ({ Time := e.Time, Date := e.Date, Year := e.Year, Month := e.Month
               Country := e.Country, Exports := e.Value, Imports := i.Value } : MergedRow)).countP
          (fun m => decide ((m.Time, m.Country) = (t, c))) = 1 by
        omega
      by_cases hms : (imps'.filter (fun i => decide (joinKey i = joinKey e))).isEmpty
      · rw [if_pos hms]
        simp [List.countP_cons]
        exact Prod.ext_iff.mp htc
      · rw [if_neg (by simpa using hms)]
        rw [List.countP_map]
        have hall : (imps'.filter (fun i => decide (joinKey i = joinKey e))).countP
            ((fun m : MergedRow => decide ((m.Time, m.Country) = (t, c))) ∘ fun i =>
              { Time := e.Time, Date := e.Date, Year := e.Year, Month := e.Month
                Country := e.Country, Exports := e.Value, Imports := i.Value })
            = (imps'.filter (fun i => decide (joinKey i = joinKey e))).length := by
          rw [List.countP_eq_length]
          intro i _
          simpa using htc
        rw [hall]
        have hfe : imps'.filter (fun i => decide (joinKey i = joinKey e))
            = imps'.filter (fun i => decide ((i.Time, i.Country) = (t, c))) := by
          refine List.filter_congr ?_
          intro i hi
          have hiff := joinKey_eq_iff i e (himps i hi) hse
          have hiff2 : (joinKey i = joinKey e) ↔ ((i.Time, i.Country) = (t, c)) := by
            rw [hiff]
            constructor
            · rintro ⟨h1, h2⟩
              rw [Prod.ext_iff] at htc ⊢
              exact ⟨h1.trans htc.1, h2.trans htc.2⟩
            · intro h
              rw [Prod.ext_iff] at htc h
              exact ⟨h.1.trans htc.1.symm, h.2.trans htc.2.symm⟩
          exact decide_eq_decide.mpr hiff2
        rw [hfe] at hms ⊢
        have hnil : imps'.filter (fun i => decide ((i.Time, i.Country) = (t, c))) ≠ [] := by
          intro h0
          rw [h0] at hms
          exact hms rfl
        obtain ⟨i, hi⟩ := List.exists_mem_of_ne_nil _ hnil
        have hm := List.mem_filter.mp hi
        have hne : ∃ a ∈ imps', (fun x : MergeInRow => (x.Time, x.Country)) a = (t, c) :=
          ⟨i, hm.1, by simpa using hm.2⟩
        rw [← List.countP_eq_length_filter]
        exact countP_eq_one_of_nodup imps' (fun x => (x.Time, x.Country)) (t, c) hui hne
    · conv_rhs => rw [if_neg (by simpa using htc)]
      suffices hzero :
          (if (imps'.filter (fun i => decide (joinKey i = joinKey e))).isEmpty then
            ([{ Time := e.Time, Date := e.Date, Year := e.Year, Month := e.Month
                Country := e.Country, Exports := e.Value, Imports := FVal.nan }] : List MergedRow)
          else (imps'.filter (fun i => decide (joinKey i = joinKey e))).map fun i =>
            ({ Time := e.Time, Date := e.Date, Year := e.Year, Month := e.Month
               Country := e.Country, Exports := e.Value, Imports := i.Value } : MergedRow)).countP
          (fun m => decide ((m.Time, m.Country) = (t, c))) = 0 by
        omega
      by_cases hms : (imps'.filter (fun i => decide (joinKey i = joinKey e))).isEmpty
      · rw [if_pos hms]
        simp [List.countP_cons]
        intro h1 h2
        exact htc (by rw [h1, h2])
      · rw [if_neg (by simpa using hms)]
        rw [List.countP_map, List.countP_eq_zero]
        intro i _
        simpa using htc

end Tariffs

namespace Tariffs

lemma rightJoin_countP_zero (es' imps' : List MergeInRow) (t c : String)
    (hes : ∀ x ∈ es', x.shape) (himps : ∀ x ∈ imps', x.shape)
    (hpres : ∃ e ∈ es', (e.Time, e.Country) = (t, c)) :
    ((imps'.filter fun i => !(es'.any fun e => decide (joinKey e = joinKey i))).map
      fun i =>
      ({ Time := i.Time, Date := i.Date, Year := i.Year, Month := i.Month
         Country := i.Country, Exports := FVal.nan, Imports := i.Value } : MergedRow)).countP
      (fun m => decide ((m.Time, m.Country) = (t, c))) = 0 := by
  obtain ⟨e0, he0, htc0⟩ := hpres
  rw [List.countP_map, List.countP_eq_zero]
  intro i hi
  simp only [Function.comp_apply, decide_eq_true_eq]
  intro htci
  have hmem := List.mem_filter.mp hi
  have hkey : joinKey e0 = joinKey i := by
    refine (joinKey_eq_iff e0 i (hes e0 he0) (himps i hmem.1)).mpr ?_
    rw [Prod.ext_iff] at htc0 htci
    exact ⟨htc0.1.trans htci.1.symm, htc0.2.trans htci.2.symm⟩
  have hany : (es'.any fun e => decide (joinKey e = joinKey i)) = true :=
    List.any_eq_true.mpr ⟨e0, he0, by simpa using hkey⟩
  rw [hany] at hmem
  exact absurd hmem.2 (by simp)

lemma rightJoin_countP_one (es' imps' : List MergeInRow) (t c : String)
    (hes : ∀ x ∈ es', x.shape) (himps : ∀ x ∈ imps', x.shape)
    (hui : (imps'.map fun x => (x.Time, x.Country)).Nodup)
    (habs : ∀ e ∈ es', (e.Time, e.Country) ≠ (t, c))
    (hpres : ∃ i ∈ imps', (i.Time, i.Country) = (t, c)) :
    ((imps'.filter fun i => !(es'.any fun e => decide (joinKey e = joinKey i))).map
      fun i =>
      ({ Time := i.Time, Date := i.Date, Year := i.Year, Month := i.Month
         Country := i.Country, Exports := FVal.nan, Imports := i.Value } : MergedRow)).countP
      (fun m => decide ((m.Time, m.Country) = (t, c))) = 1 := by
  obtain ⟨i0, hi0, htci0⟩ := hpres
  rw [List.countP_map]
  have hnd : ((imps'.filter fun i => !(es'.any fun e => decide (joinKey e = joinKey i))).map
      (fun x : MergeInRow => (x.Time, x.Country))).Nodup :=
    ((List.filter_sublist imps').map (fun x : MergeInRow => (x.Time, x.Country))).nodup hui
  have hX : (es'.any fun e => decide (joinKey e = joinKey i0)) = false := by
    by_contra hX
    rw [Bool.not_eq_false, List.any_eq_true] at hX
    obtain ⟨e, he, hke⟩ := hX
    rw [decide_eq_true_eq] at hke
    have htce := (joinKey_eq_iff e i0 (hes e he) (himps i0 hi0)).mp hke
    refine habs e he ?_
    rw [Prod.ext_iff] at htci0 ⊢
    exact ⟨htce.1.trans htci0.1, htce.2.trans htci0.2⟩
  have hmem : i0 ∈ imps'.filter fun i => !(es'.any fun e => decide (joinKey e = joinKey i)) :=
    List.mem_filter.mpr ⟨hi0, by rw [hX]; rfl⟩
  exact countP_eq_one_of_nodup _ (fun x : MergeInRow => (x.Time, x.Country)) (t, c)
    hnd ⟨i0, hmem, htci0⟩

lemma rightJoin_countP_zero_absent (es' imps' : List MergeInRow) (t c : String)
    (habs : ∀ i ∈ imps', (i.Time, i.Country) ≠ (t, c)) :
    ((imps'.filter fun i => !(es'.any fun e => decide (joinKey e = joinKey i))).map
      fun i =>
      ({ Time := i.Time, Date := i.Date, Year := i.Year, Month := i.Month
         Country := i.Country, Exports := FVal.nan, Imports := i.Value } : MergedRow)).countP
      (fun m => decide ((m.Time, m.Country) = (t, c))) = 0 := by
  rw [List.countP_map, List.countP_eq_zero]
  intro i hi
  simp only [Function.comp_apply, decide_eq_true_eq]
  exact habs i (List.mem_filter.mp hi).1

lemma outerMerge_countP (es' imps' : List MergeInRow) (t c : String)
    (hes : ∀ x ∈ es', x.shape) (himps : ∀ x ∈ imps', x.shape)
    (hue : (es'.map fun x => (x.Time, x.Country)).Nodup)
    (hui : (imps'.map fun x => (x.Time, x.Country)).Nodup)
    (hpres : (∃ e ∈ es', (e.Time, e.Country) = (t, c)) ∨
             (∃ i ∈ imps', (i.Time, i.Country) = (t, c))) :
    (outerMerge es' imps').countP (fun m => decide ((m.Time, m.Country) = (t, c))) = 1 := by
  rw [outerMerge, List.countP_append, leftJoin_countP imps' t c himps hui es' hes]
  by_cases hpe : ∃ e ∈ es', (e.Time, e.Country) = (t, c)
  · rw [rightJoin_countP_zero es' imps' t c hes himps hpe]
    obtain ⟨e0, he0, htc0⟩ := hpe
    rw [countP_eq_one_of_nodup es' (fun x : MergeInRow => (x.Time, x.Country)) (t, c)
      hue ⟨e0, he0, htc0⟩]
  · have habs : ∀ e ∈ es', (e.Time, e.Country) ≠ (t, c) := by
      intro e he hc
      exact hpe ⟨e, he, hc⟩
    have hpi : ∃ i ∈ imps', (i.Time, i.Country) = (t, c) := hpres.resolve_left hpe
    rw [rightJoin_countP_one es' imps' t c hes himps hui habs hpi]
    have hz : es'.countP (fun e => decide ((e.Time, e.Country) = (t, c))) = 0 := by
      rw [List.countP_eq_zero]
      intro e he
      simpa using habs e he
    rw [hz]

end Tariffs

namespace Tariffs

lemma outerMerge_mem_sides (es' imps' : List MergeInRow) (r : MergedRow)
    (hr : r ∈ outerMerge es' imps') :
    (∃ e ∈ es', e.Time = r.Time ∧ e.Country = r.Country ∧ r.Exports = e.Value) ∨
    (∃ i ∈ imps', i.Time = r.Time ∧ i.Country = r.Country ∧ r.Imports = i.Value) := by
  rw [outerMerge] at hr
  rcases List.mem_append.mp hr with h | h
  · rw [List.mem_flatMap] at h
    obtain ⟨e, he, hbody⟩ := h
    by_cases hms : (imps'.filter (fun i => decide (joinKey i = joinKey e))).isEmpty
    · rw [if_pos hms, List.mem_singleton] at hbody
      subst hbody
      exact Or.inl ⟨e, he, rfl, rfl, rfl⟩
    · rw [if_neg hms, List.mem_map] at hbody
      obtain ⟨i, _, rfl⟩ := hbody
      exact Or.inl ⟨e, he, rfl, rfl, rfl⟩
  · rw [List.mem_map] at h
    obtain ⟨i, hi, rfl⟩ := h
    exact Or.inr ⟨i, (List.mem_filter.mp hi).1, rfl, rfl, rfl⟩

lemma outerMerge_imports_nan (es' imps' : List MergeInRow) (r : MergedRow)
    (hr : r ∈ outerMerge es' imps')
    (habs : ∀ i ∈ imps', ¬(i.Time = r.Time ∧ i.Country = r.Country)) :
    r.Imports = FVal.nan := by
  rw [outerMerge] at hr
  rcases List.mem_append.mp hr with h | h
  · rw [List.mem_flatMap] at h
    obtain ⟨e, he, hbody⟩ := h
    by_cases hms : (imps'.filter (fun i => decide (joinKey i = joinKey e))).isEmpty
    · rw [if_pos hms, List.mem_singleton] at hbody
      subst hbody
      rfl
    · rw [if_neg hms, List.mem_map] at hbody
      obtain ⟨i, hi, rfl⟩ := hbody
      have hmf := List.mem_filter.mp hi
      have hkey : joinKey i = joinKey e := by simpa using hmf.2
      have h1 : i.Time = e.Time := congrArg (fun k => k.1) hkey
      have h2 : i.Country = e.Country := congrArg (fun k => k.2.2.2.2) hkey
      exact absurd ⟨h1, h2⟩ (habs i hmf.1)
  · rw [List.mem_map] at h
    obtain ⟨i, hi, rfl⟩ := h
    exact absurd ⟨rfl, rfl⟩ (habs i (List.mem_filter.mp hi).1)

lemma outerMerge_exports_nan (es' imps' : List MergeInRow) (r : MergedRow)
    (hr : r ∈ outerMerge es' imps')
    (habs : ∀ e ∈ es', ¬(e.Time = r.Time ∧ e.Country = r.Country)) :
    r.Exports = FVal.nan := by
  rw [outerMerge] at hr
  rcases List.mem_append.mp hr with h | h
  · rw [List.mem_flatMap] at h
    obtain ⟨e, he, hbody⟩ := h
    by_cases hms : (imps'.filter (fun i => decide (joinKey i = joinKey e))).isEmpty
    · rw [if_pos hms, List.mem_singleton] at hbody
      subst hbody
      exact absurd ⟨rfl, rfl⟩ (habs e he)
    · rw [if_neg hms, List.mem_map] at hbody
      obtain ⟨i, _, rfl⟩ := hbody
      exact absurd ⟨rfl, rfl⟩ (habs e he)
  · rw [List.mem_map] at h
    obtain ⟨i, _, rfl⟩ := h
    rfl

lemma deriveRow_imports_nan (merged : List MergedRow) (m : MergedRow)
    (h : m.Imports = FVal.nan) :
    (deriveRow merged m).Imports = FVal.nan ∧
    (deriveRow merged m).Trade_Balance = FVal.nan ∧
    (deriveRow merged m).Trade_Volume = FVal.nan ∧
    (deriveRow merged m).Export_Import_Ratio = FVal.nan ∧
    (deriveRow merged m).Import_Share = FVal.nan ∧
    (deriveRow merged m).RCA_Index = FVal.nan := by
  simp [deriveRow, h, FVal.sub_nan, FVal.add_nan, FVal.div_nan, FVal.nan_div]

lemma deriveRow_exports_nan (merged : List MergedRow) (m : MergedRow)
    (h : m.Exports = FVal.nan) :
    (deriveRow merged m).Exports = FVal.nan ∧
    (deriveRow merged m).Trade_Balance = FVal.nan ∧
    (deriveRow merged m).Trade_Volume = FVal.nan ∧
    (deriveRow merged m).Export_Import_Ratio = FVal.nan ∧
    (deriveRow merged m).Export_Share = FVal.nan ∧
    (deriveRow merged m).RCA_Index = FVal.nan := by
  simp [deriveRow, h, FVal.nan_sub, FVal.nan_add, FVal.nan_div, FVal.div_nan]

end Tariffs

namespace Tariffs

lemma harmonize_shape (raws : List RawTradeRecord) (l : List NormalizedRecord)
    (h : harmonize raws = some l) : ∀ r ∈ l, r.harmonizedShape := by
  induction raws generalizing l with
  | nil =>
    simp only [harmonize, Option.some.injEq] at h
    subst h
    simp
  | cons hd tl ih =>
    simp only [harmonize] at h
    cases hnr : normalizeRecord hd with
    | none => rw [hnr] at h; cases h
    | some nr =>
      rw [hnr] at h
      cases htl : harmonize tl with
      | none => rw [htl] at h; cases h
      | some l' =>
        rw [htl] at h
        simp only [Option.some.injEq] at h
        subst h
        intro r hr
        rcases List.mem_cons.mp hr with rfl | hr'
        · simp only [normalizeRecord] at hnr
          cases hpv : parseValue hd.Value with
          | none => rw [hpv] at hnr; cases hnr
          | some q =>
            rw [hpv] at hnr
            simp only [Option.some.injEq] at hnr
            subst hnr
            exact ⟨rfl, rfl, rfl⟩
        · exact ih l' htl r hr'

/-- C5: for harmonizer-shaped input sets with unique (Time, Country) keys
per side, every key present in either side appears exactly once in the
joined output; a key present on only one side has the other side's value
missing (NaN) and every derived field depending on that value missing —
missing is never turned into zero — no spurious row appears, and the
derivation step drops no row of the merge. -/
theorem c5_outer_join_completeness (es imps : List NormalizedRecord)
    (hse : ∀ r ∈ es, r.harmonizedShape) (hsi : ∀ r ∈ imps, r.harmonizedShape)
    (hue : (es.map fun r => (r.Time, r.Country)).Nodup)
    (hui : (imps.map fun r => (r.Time, r.Country)).Nodup) :
    (∀ t c : String,
       ((∃ e ∈ es, (e.Time, e.Country) = (t, c)) ∨
        (∃ i ∈ imps, (i.Time, i.Country) = (t, c))) →
       (calculate_trade_metrics es imps).countP
         (fun r => decide ((r.Time, r.Country) = (t, c))) = 1) ∧
    (∀ r ∈ calculate_trade_metrics es imps,
       (∀ i ∈ imps, ¬(i.Time = r.Time ∧ i.Country = r.Country)) →
       r.Imports = FVal.nan ∧ r.Trade_Balance = FVal.nan ∧ r.Trade_Volume = FVal.nan ∧
       r.Export_Import_Ratio = FVal.nan ∧ r.Import_Share = FVal.nan ∧
       r.RCA_Index = FVal.nan) ∧
    (∀ r ∈ calculate_trade_metrics es imps,
       (∀ e ∈ es, ¬(e.Time = r.Time ∧ e.Country = r.Country)) →
       r.Exports = FVal.nan ∧ r.Trade_Balance = FVal.nan ∧ r.Trade_Volume = FVal.nan ∧
       r.Export_Import_Ratio = FVal.nan ∧ r.Export_Share = FVal.nan ∧
       r.RCA_Index = FVal.nan) ∧
    (∀ r ∈ calculate_trade_metrics es imps,
       (∃ e ∈ es, e.Time = r.Time ∧ e.Country = r.Country) ∨
       (∃ i ∈ imps, i.Time = r.Time ∧ i.Country = r.Country)) ∧
    (calculate_trade_metrics es imps).length =
      (outerMerge (es.map project) (imps.map project)).length := by
  have hse' : ∀ x ∈ es.map project, x.shape := by
    intro x hx
    obtain ⟨r, hr, rfl⟩ := List.mem_map.mp hx
    exact project_shape r (hse r hr)
  have hsi' : ∀ x ∈ imps.map project, x.shape := by
    intro x hx
    obtain ⟨r, hr, rfl⟩ := List.mem_map.mp hx
    exact project_shape r (hsi r hr)
  have hue' : ((es.map project).map fun x => (x.Time, x.Country)).Nodup := by
    rw [List.map_map]
    exact hue
  have hui' : ((imps.map project).map fun x => (x.Time, x.Country)).Nodup := by
    rw [List.map_map]
    exact hui
  have hcalc : calculate_trade_metrics es imps
      = (outerMerge (es.map project) (imps.map project)).map
          (deriveRow (outerMerge (es.map project) (imps.map project))) := rfl
  refine ⟨?_, ?_, ?_, ?_, ?_⟩
  · intro t c hpres
    have hpres' : (∃ e ∈ es.map project, (e.Time, e.Country) = (t, c)) ∨
        (∃ i ∈ imps.map project, (i.Time, i.Country) = (t, c)) := by
      rcases hpres with ⟨e, he, h⟩ | ⟨i, hi, h⟩
      · exact Or.inl ⟨project e, List.mem_map_of_mem _ he, h⟩
      · exact Or.inr ⟨project i, List.mem_map_of_mem _ hi, h⟩
    have h := outerMerge_countP (es.map project) (imps.map project) t c
      hse' hsi' hue' hui' hpres'
    rw [hcalc, List.countP_map]
    exact h
  · intro r hr habs
    rw [hcalc] at hr
    obtain ⟨m, hm, rfl⟩ := List.mem_map.mp hr
    have habs' : ∀ i ∈ imps.map project, ¬(i.Time = m.Time ∧ i.Country = m.Country) := by
      intro i hi
      obtain ⟨i0, hi0, rfl⟩ := List.mem_map.mp hi
      exact habs i0 hi0
    exact deriveRow_imports_nan _ m (outerMerge_imports_nan _ _ m hm habs')
  · intro r hr habs
    rw [hcalc] at hr
    obtain ⟨m, hm, rfl⟩ := List.mem_map.mp hr
    have habs' : ∀ e ∈ es.map project, ¬(e.Time = m.Time ∧ e.Country = m.Country) := by
      intro e he
      obtain ⟨e0, he0, rfl⟩ := List.mem_map.mp he
      exact habs e0 he0
    exact deriveRow_exports_nan _ m (outerMerge_exports_nan _ _ m hm habs')
  · intro r hr
    rw [hcalc] at hr
    obtain ⟨m, hm, rfl⟩ := List.mem_map.mp hr
    rcases outerMerge_mem_sides _ _ m hm with ⟨e, he, h1, h2, _⟩ | ⟨i, hi, h1, h2, _⟩
    · obtain ⟨e0, he0, rfl⟩ := List.mem_map.mp he
      exact Or.inl ⟨e0, he0, h1, h2⟩
    · obtain ⟨i0, hi0, rfl⟩ := List.mem_map.mp hi
      exact Or.inr ⟨i0, hi0, h1, h2⟩
  · rw [hcalc, List.length_map]

/-- C5, witness: two export rows (Canada, Mexico) and one import row
(Canada), all for the period "2021" — the key ("2021", "Canada") appears
exactly once in the joined fact table. -/
theorem c5_witness :
    (calculate_trade_metrics
      [{ Time := "2021", Date := some "2021", Year := "2021", Month := "Annual",
         Month_Num := some "00", Country := "Canada", Value := FVal.fin 30 },
       { Time := "2021", Date := some "2021", Year := "2021", Month := "Annual",
         Month_Num := some "00", Country := "Mexico", Value := FVal.fin 70 }]
      [{ Time := "2021", Date := some "2021", Year := "2021", Month := "Annual",
         Month_Num := some "00", Country := "Canada", Value := FVal.fin 5 }]).countP
      (fun r => decide ((r.Time, r.Country) = ("2021", "Canada"))) = 1 :=
  (c5_outer_join_completeness
    [{ Time := "2021", Date := some "2021", Year := "2021", Month := "Annual",
       Month_Num := some "00", Country := "Canada", Value := FVal.fin 30 },
     { Time := "2021", Date := some "2021", Year := "2021", Month := "Annual",
       Month_Num := some "00", Country := "Mexico", Value := FVal.fin 70 }]
    [{ Time := "2021", Date := some "2021", Year := "2021", Month := "Annual",
       Month_Num := some "00", Country := "Canada", Value := FVal.fin 5 }]
    (by intro r hr; fin_cases hr <;> exact ⟨by decide, by decide, by decide⟩)
    (by intro r hr; fin_cases hr; exact ⟨by decide, by decide, by decide⟩)
    (by decide) (by decide)).1 "2021" "Canada"
    (by decide)

end Tariffs


namespace Tariffs

/-- C2, witness: the one-record input "Blah 2021" parses, the run
completes, and the record's unknown month gives missing Month_Num and
Date. -/
theorem c2_witness :
    ∃ l, harmonize [{ Time := "Blah 2021", Country := "Canada", Value := "1" }] = some l ∧
      ∀ nr ∈ l, month_map nr.Month = none → nr.Month_Num = none ∧ nr.Date = none :=
  c2_unknown_month_is_silent [{ Time := "Blah 2021", Country := "Canada", Value := "1" }]
    (by intro r hr; fin_cases hr; decide)

end Tariffs
